import Mathlib

/-!
Verification of atom/renderer/api/atom_api_spell_check_client.cc.

Strings are lists of UTF-16 code units (base::string16).  The V8 provider
object, its bound spellCheck function and the ICU word iterators are external
collaborators of the translation unit; a ClientState value records, for one
call, what each of them answers: an outer Option models a JS function or
provider method that may be absent, and an inner Option models a V8 result
whose conversion to the expected native type may fail.
-/

namespace Electron

/-- UTF-16 code units of a base::string16. -/
abbrev Str := List Nat

/-- ICU script code USCRIPT_COMMON (the script-less category). -/
def USCRIPT_COMMON : Nat := 0

/-- U16_IS_LEAD: high (lead) surrogate code unit. -/
def isLeadSurrogate (u : Nat) : Bool := 0xD800 ≤ u && u ≤ 0xDBFF

/-- U16_IS_TRAIL: low (trail) surrogate code unit. -/
def isTrailSurrogate (u : Nat) : Bool := 0xDC00 ≤ u && u ≤ 0xDFFF

/-- U16_GET_SUPPLEMENTARY: the code point of a surrogate pair. -/
def combineSurrogates (lead trail : Nat) : Nat :=
  0x10000 + (lead - 0xD800) * 0x400 + (trail - 0xDC00)

/-- The code-point sequence U16_NEXT yields over a code-unit sequence: a lead
surrogate followed by a trail surrogate decodes as one supplementary code
point; any other unit (including an unpaired surrogate) is its own code
point. -/
def u16Decode : Str → List Nat
  | [] => []
  | [u] => [u]
  | u :: t :: rest =>
    if isLeadSurrogate u && isTrailSurrogate t then
      combineSurrogates u t :: u16Decode rest
    else
      u :: u16Decode (t :: rest)

/-- Loop of HasWordCharacters over the remaining code units: U16_NEXT each
code point and test its script against USCRIPT_COMMON. -/
def hasWordCharsFrom (uscript : Nat → Nat) : Str → Bool
  | [] => false
  | [u] => uscript u != USCRIPT_COMMON
  | u :: t :: rest =>
    if isLeadSurrogate u && isTrailSurrogate t then
      if uscript (combineSurrogates u t) != USCRIPT_COMMON then true
      else hasWordCharsFrom uscript rest
    else
      if uscript u != USCRIPT_COMMON then true
      else hasWordCharsFrom uscript (t :: rest)

/-- HasWordCharacters(text, index): scan code points from index onwards and
report whether any has a script other than USCRIPT_COMMON.  The uscript
argument is the ICU script-property lookup uscript_getScript. -/
def HasWordCharacters (uscript : Nat → Nat) (text : Str) (index : Nat) : Bool :=
  hasWordCharsFrom uscript (text.drop index)

/-- One (word, word_start, word_length) triple produced by
SpellcheckWordIterator::GetNextWord. -/
structure Word where
  text : Str
  start : Nat
  length : Nat
deriving DecidableEq

/-- blink::WebTextCheckingResult as converted from a V8 dictionary: one
misspelled span inside a checked block. -/
structure WebTextCheckingResult where
  location : Nat
  length : Nat
deriving DecidableEq

/-- State of one SpellCheckClient call, covering the object's fields and its
external collaborators: the ICU script table, the persisted spellCheck
function (spell_check_, absent when IsEmpty), the provider object's methods,
whether each lazily initialized word iterator is usable (IsInitialized or a
successful Initialize), and the word sequence each iterator yields for a
given text. -/
structure ClientState where
  uscript : Nat → Nat
  spell_check : Option (Str → Option Bool)
  providerRequestCheckingOfText : Option (Str → Option (List WebTextCheckingResult))
  providerAutoCorrectWord : Option (Str → Option Str)
  textIterOk : Bool
  contractionIterOk : Bool
  segmentText : Str → List Word
  segmentContraction : Str → List Word

/-- SpellCheckClient::CheckSpelling: true when spell_check_ is empty; when the
bound function is called, a boolean V8 result is returned verbatim and any
non-boolean result (inner none) is treated as correctly spelled. -/
def CheckSpelling (st : ClientState) (word_to_check : Str) : Bool :=
  match st.spell_check with
  | none => true
  | some f =>
    match f word_to_check with
    | some b => b
    | none => true

/-- While loop of IsValidContraction over the contraction iterator's words:
false at the first rejected sub-word, true when all pass. -/
def contractionLoop (st : ClientState) : List Word → Bool
  | [] => true
  | w :: ws =>
    if !(CheckSpelling st w.text) then false
    else contractionLoop st ws

/-- SpellCheckClient::IsValidContraction: true when the contraction iterator
cannot be initialized, otherwise re-segment the word and check each
sub-word. -/
def IsValidContraction (st : ClientState) (contraction : Str) : Bool :=
  if !st.contractionIterOk then true
  else contractionLoop st (st.segmentContraction contraction)

/-- While loop of spellCheck over the text iterator's words: skip words the
checker accepts or contraction resolution rescues; stop at the first word
failing both, yielding its (word_start, word_length). -/
def spellCheckLoop (st : ClientState) : List Word → Option (Nat × Nat)
  | [] => none
  | w :: ws =>
    if CheckSpelling st w.text then spellCheckLoop st ws
    else if IsValidContraction st w.text then spellCheckLoop st ws
    else some (w.start, w.length)

/-- SpellCheckClient::spellCheck; some (start, length) means the misspelling
output slots were written, none means the function returned without writing
them. -/
def spellCheck (st : ClientState) (text : Str) : Option (Nat × Nat) :=
  if text.length = 0 || st.spell_check.isNone then none
  else if !st.textIterOk then none
  else spellCheckLoop st (st.segmentText text)

/-- blink::WebTextCheckingTypeSpelling mask bit. -/
def WebTextCheckingTypeSpelling : Nat := 1

/-- Observable outcome of SpellCheckClient::checkTextOfParagraph: either an
early silent return or the NOTREACHED fatal diagnostic assertion. -/
inductive ParagraphOutcome where
  | returnedSilently
  | fatalAssertion
deriving DecidableEq

/-- SpellCheckClient::checkTextOfParagraph: returns silently when results is
null or the mask lacks the spelling type; only past both guards is
NOTREACHED hit.  The text argument is never inspected. -/
def checkTextOfParagraph (text : Str) (mask : Nat) (resultsPresent : Bool) :
    ParagraphOutcome :=
  if !resultsPresent then ParagraphOutcome.returnedSilently
  else if mask &&& WebTextCheckingTypeSpelling = 0 then ParagraphOutcome.returnedSilently
  else ParagraphOutcome.fatalAssertion

/-- One invocation on the blink::WebTextCheckingCompletion callback. -/
inductive CompletionSignal where
  | didCancelCheckingText
  | didFinishCheckingText (results : List WebTextCheckingResult)
deriving DecidableEq

/-- Trace of one requestCheckingOfText call: the completion-callback
invocations in order, and how many times the provider method was invoked
through node::MakeCallback. -/
structure RequestOutcome where
  signals : List CompletionSignal
  providerCalls : Nat
deriving DecidableEq

/-- SpellCheckClient::CallProviderMethod: when the provider lacks the method,
fail with zero invocations; otherwise one MakeCallback invocation, whose
converted result is none exactly when ConvertFromV8 fails. -/
def CallProviderMethod {T : Type} (method : Option (Str → Option T)) (text : Str) :
    Option T × Nat :=
  match method with
  | none => (none, 0)
  | some f => (f text, 1)

/-- SpellCheckClient::requestCheckingOfText: cancel synchronously on empty or
script-less text; otherwise call the provider method and either cancel (call
failed or unconvertible result) or finish with the converted results. -/
def requestCheckingOfText (st : ClientState) (textToCheck : Str)
    (markersInText : List Nat) (markerOffsets : List Nat) : RequestOutcome :=
  if textToCheck.isEmpty || !(HasWordCharacters st.uscript textToCheck 0) then
    ⟨[CompletionSignal.didCancelCheckingText], 0⟩
  else
    match CallProviderMethod st.providerRequestCheckingOfText textToCheck with
    | (none, k) => ⟨[CompletionSignal.didCancelCheckingText], k⟩
    | (some result, k) => ⟨[CompletionSignal.didFinishCheckingText result], k⟩

/-- SpellCheckClient::autoCorrectWord; the empty string is the default
blink::WebString() returned when CallProviderMethod fails. -/
def autoCorrectWord (st : ClientState) (misspelledWord : Str) : Str :=
  match (CallProviderMethod st.providerAutoCorrectWord misspelledWord).1 with
  | none => []
  | some result => result

/-! Helper lemmas shared across the claim theorems. -/

theorem CheckSpelling_false_isSome (st : ClientState) (w : Str)
    (h : CheckSpelling st w = false) : st.spell_check.isSome := by
  cases hsc : st.spell_check with
  | none => exact absurd h (by simp [CheckSpelling, hsc])
  | some f => simp [hsc]

theorem contractionLoop_eq_true_iff (st : ClientState) (ws : List Word) :
    contractionLoop st ws = true ↔ ∀ s ∈ ws, CheckSpelling st s.text = true := by
  induction ws with
  | nil => simp [contractionLoop]
  | cons w ws ih =>
    by_cases h : CheckSpelling st w.text = true
    · simp [contractionLoop, h, ih]
    · simp only [Bool.not_eq_true] at h
      simp [contractionLoop, h]

theorem spellCheckLoop_all_pass (st : ClientState) (ws : List Word)
    (h : ∀ v ∈ ws, CheckSpelling st v.text = true ∨ IsValidContraction st v.text = true) :
    spellCheckLoop st ws = none := by
  induction ws with
  | nil => rfl
  | cons w ws ih =>
    have hrest : ∀ v ∈ ws, CheckSpelling st v.text = true ∨ IsValidContraction st v.text = true :=
      fun v hv => h v (List.mem_cons_of_mem w hv)
    rcases h w (List.mem_cons_self w ws) with h1 | h1
    · simp [spellCheckLoop, h1, ih hrest]
    · by_cases h2 : CheckSpelling st w.text = true
      · simp [spellCheckLoop, h2, ih hrest]
      · simp only [Bool.not_eq_true] at h2
        simp [spellCheckLoop, h1, h2, ih hrest]

theorem spellCheckLoop_first_miss (st : ClientState) (w : Word) :
    ∀ pre suf : List Word,
      (∀ v ∈ pre, CheckSpelling st v.text = true ∨ IsValidContraction st v.text = true) →
      CheckSpelling st w.text = false → IsValidContraction st w.text = false →
      spellCheckLoop st (pre ++ w :: suf) = some (w.start, w.length) := by
  intro pre
  induction pre with
  | nil => intro suf hpre hc hi; simp [spellCheckLoop, hc, hi]
  | cons v pre ih =>
    intro suf hpre hc hi
    have hrest : ∀ x ∈ pre, CheckSpelling st x.text = true ∨ IsValidContraction st x.text = true :=
      fun x hx => hpre x (List.mem_cons_of_mem v hx)
    rcases hpre v (List.mem_cons_self v pre) with h1 | h1
    · simp [spellCheckLoop, h1, ih suf hrest hc hi]
    · by_cases h2 : CheckSpelling st v.text = true
      · simp [spellCheckLoop, h2, ih suf hrest hc hi]
      · simp only [Bool.not_eq_true] at h2
        simp [spellCheckLoop, h1, h2, ih suf hrest hc hi]

theorem hasWordCharsFrom_eq_any (uscript : Nat → Nat) :
    ∀ l : Str, hasWordCharsFrom uscript l =
      (u16Decode l).any (fun c => uscript c != USCRIPT_COMMON) := by
  have key : ∀ n : Nat, ∀ l : Str, l.length ≤ n →
      hasWordCharsFrom uscript l =
        (u16Decode l).any (fun c => uscript c != USCRIPT_COMMON) := by
    intro n
    induction n with
    | zero =>
      intro l hl
      match l with
      | [] => rfl
      | u :: rest => simp at hl
    | succ n ih =>
      intro l hl
      match l with
      | [] => rfl
      | [u] => simp [hasWordCharsFrom, u16Decode]
      | u :: t :: rest =>
        simp only [List.length_cons] at hl
        by_cases hp : (isLeadSurrogate u && isTrailSurrogate t) = true
        · by_cases hs : (uscript (combineSurrogates u t) != USCRIPT_COMMON) = true
          · simp [hasWordCharsFrom, u16Decode, hp, hs]
          · have hrest : rest.length ≤ n := by omega
            simp only [Bool.not_eq_true] at hs
            simp [hasWordCharsFrom, u16Decode, hp, hs, ih rest hrest]
        · by_cases hs : (uscript u != USCRIPT_COMMON) = true
          · simp [hasWordCharsFrom, u16Decode, hp, hs]
          · have hrest : (t :: rest).length ≤ n := by simp; omega
            simp only [Bool.not_eq_true] at hs
            simp only [Bool.not_eq_true] at hp
            simp [hasWordCharsFrom, u16Decode, hp, hs, ih (t :: rest) hrest]
  intro l
  exact key l.length l (Nat.le_refl _)

/-! Concrete states used by the witness theorems.  The checker accepts
exactly the word "hi" ([104, 105]); the text iterator yields the three words
of "hi xx yy"; the contraction iterator maps a word to itself; code units up
to 0x40 (digits, punctuation) are classified USCRIPT_COMMON and the rest
USCRIPT_LATIN (25). -/

def wHi : Word := ⟨[104, 105], 0, 2⟩

def wXx : Word := ⟨[120, 120], 3, 2⟩

def wYy : Word := ⟨[121, 121], 6, 2⟩

def stBase : ClientState where
  uscript := fun c => if c ≤ 0x40 then USCRIPT_COMMON else 25
  spell_check := some fun w => some (decide (w = [104, 105]))
  providerRequestCheckingOfText := none
  providerAutoCorrectWord := none
  textIterOk := true
  contractionIterOk := true
  segmentText := fun _ => [wHi, wXx, wYy]
  segmentContraction := fun w => [⟨w, 0, w.length⟩]

def stReject : ClientState :=
  { stBase with spell_check := some fun _ => some false }

def stAuto : ClientState :=
  { stBase with providerAutoCorrectWord := some fun _ => some [98, 99] }

/-! The claim theorems. -/

/-- C1: a single call to requestCheckingOfText invokes exactly one of
didCancelCheckingText or didFinishCheckingText on the completion callback,
exactly once, and sends no further completion signal afterward, for every
input text and provider state. -/
theorem requestCheckingOfText_exactly_once (st : ClientState) (text : Str)
    (markersInText markerOffsets : List Nat) :
    (requestCheckingOfText st text markersInText markerOffsets).signals =
        [CompletionSignal.didCancelCheckingText] ∨
      ∃ results, (requestCheckingOfText st text markersInText markerOffsets).signals =
        [CompletionSignal.didFinishCheckingText results] := by
  unfold requestCheckingOfText
  by_cases h : (text.isEmpty || !(HasWordCharacters st.uscript text 0)) = true
  · rw [if_pos h]
    exact Or.inl rfl
  · rw [if_neg h]
    rcases hcall : CallProviderMethod st.providerRequestCheckingOfText text with ⟨o, k⟩
    cases o with
    | none => exact Or.inl rfl
    | some results => exact Or.inr ⟨results, rfl⟩

/-- C4: IsValidContraction is true when the contraction iterator fails to
initialize; otherwise it is true exactly when every sub-word of the
re-segmentation is accepted by the checker (vacuously for zero sub-words),
and false exactly when some sub-word is rejected. -/
theorem IsValidContraction_spec (st : ClientState) (w : Str) :
    IsValidContraction st w = true ↔
      st.contractionIterOk = false ∨
        ∀ s ∈ st.segmentContraction w, CheckSpelling st s.text = true := by
  unfold IsValidContraction
  cases h : st.contractionIterOk with
  | false => simp
  | true => simp [contractionLoop_eq_true_iff]

/-- C6: CheckSpelling is true when spell_check_ is unbound; when bound, a
boolean result of the call is returned verbatim and a non-boolean result is
treated as correctly spelled. -/
theorem CheckSpelling_spec (st : ClientState) (w : Str) :
    (st.spell_check = none → CheckSpelling st w = true) ∧
    (∀ f b, st.spell_check = some f → f w = some b → CheckSpelling st w = b) ∧
    (∀ f, st.spell_check = some f → f w = none → CheckSpelling st w = true) := by
  refine ⟨fun h => ?_, fun f b hf hb => ?_, fun f hf hb => ?_⟩
  · simp [CheckSpelling, h]
  · simp [CheckSpelling, hf, hb]
  · simp [CheckSpelling, hf, hb]

/-- Witness for C6: a bound checker returning the boolean false makes
CheckSpelling report false. -/
theorem CheckSpelling_spec_witness : CheckSpelling stReject [97] = false :=
  (CheckSpelling_spec stReject [97]).2.1 (fun _ => some false) false rfl rfl

/-- C7: HasWordCharacters decodes successive full code points (pairing a lead
surrogate with a following trail surrogate into one supplementary code
point) from the index to the end of the text, and is true exactly when some
decoded code point's script differs from USCRIPT_COMMON. -/
theorem HasWordCharacters_spec (uscript : Nat → Nat) (text : Str) (index : Nat) :
    HasWordCharacters uscript text index = true ↔
      ∃ c ∈ u16Decode (text.drop index), uscript c ≠ USCRIPT_COMMON := by
  unfold HasWordCharacters
  rw [hasWordCharsFrom_eq_any]
  simp [List.any_eq_true]

/-- C8: autoCorrectWord returns the provider's suggestion verbatim when the
autoCorrectWord method exists and its result converts to a string, and the
empty string when the method is missing or conversion fails. -/
theorem autoCorrectWord_spec (st : ClientState) (w : Str) :
    (∀ f r, st.providerAutoCorrectWord = some f → f w = some r →
        autoCorrectWord st w = r) ∧
    (st.providerAutoCorrectWord = none → autoCorrectWord st w = []) ∧
    (∀ f, st.providerAutoCorrectWord = some f → f w = none →
        autoCorrectWord st w = []) := by
  refine ⟨fun f r hf hr => ?_, fun h => ?_, fun f hf hr => ?_⟩
  · simp [autoCorrectWord, CallProviderMethod, hf, hr]
  · simp [autoCorrectWord, CallProviderMethod, h]
  · simp [autoCorrectWord, CallProviderMethod, hf, hr]

/-- Witness for C8: a provider suggesting "bc" makes autoCorrectWord return
exactly "bc". -/
theorem autoCorrectWord_spec_witness : autoCorrectWord stAuto [97] = [98, 99] :=
  (autoCorrectWord_spec stAuto [97]).1 (fun _ => some [98, 99]) [98, 99] rfl rfl

/-- C9 counterexample: checkTextOfParagraph invoked with a non-null results
vector but a grammar-only mask (bit 2) returns silently rather than halting
on the fatal assertion, refuting the claim's "for every combination of its
arguments". -/
theorem checkTextOfParagraph_not_always_fatal :
    checkTextOfParagraph [97] 2 true ≠ ParagraphOutcome.fatalAssertion := by
  decide

/-- C9 (amended): checkTextOfParagraph halts on the fatal diagnostic
assertion exactly when the results vector is non-null and the mask includes
the spelling checking type; otherwise it silently no-ops. -/
theorem checkTextOfParagraph_fatal_iff (text : Str) (mask : Nat)
    (resultsPresent : Bool) :
    checkTextOfParagraph text mask resultsPresent = ParagraphOutcome.fatalAssertion ↔
      resultsPresent = true ∧ mask &&& WebTextCheckingTypeSpelling ≠ 0 := by
  unfold checkTextOfParagraph
  cases resultsPresent with
  | false => simp
  | true => by_cases h : mask &&& WebTextCheckingTypeSpelling = 0 <;> simp [h]

/-- C10: two requestCheckingOfText calls on the same text and provider state
yield identical outcomes (same completion signal, same results, same number
of provider invocations) for arbitrary markersInText and markerOffsets: the
markers arguments never influence the outcome. -/
theorem requestCheckingOfText_markers_independent (st : ClientState) (text : Str)
    (m1 o1 m2 o2 : List Nat) :
    requestCheckingOfText st text m1 o1 = requestCheckingOfText st text m2 o2 := rfl

/-- C2: with a non-empty text and a usable text iterator, spellCheck scans
the segmented words left to right; at the first word failing both the
checker query and contraction resolution it writes exactly that word's
(start, length), whatever the later words are, and when every word passes
one of the two tests it reports no misspelling. -/
theorem spellCheck_first_miss_only (st : ClientState) (text : Str)
    (hlen : text.length ≠ 0) (hiter : st.textIterOk = true) :
    (∀ (pre : List Word) (w : Word) (suf : List Word),
        st.segmentText text = pre ++ w :: suf →
        (∀ v ∈ pre, CheckSpelling st v.text = true ∨ IsValidContraction st v.text = true) →
        CheckSpelling st w.text = false → IsValidContraction st w.text = false →
        spellCheck st text = some (w.start, w.length)) ∧
    ((∀ v ∈ st.segmentText text,
        CheckSpelling st v.text = true ∨ IsValidContraction st v.text = true) →
      spellCheck st text = none) := by
  constructor
  · intro pre w suf hseg hpre hc hi
    have hs : st.spell_check.isSome := CheckSpelling_false_isSome st w.text hc
    have hn : st.spell_check.isNone = false := by
      cases hsc : st.spell_check with
      | none => rw [hsc] at hs; exact absurd hs (by simp)
      | some f => simp [hsc]
    rw [spellCheck, if_neg (by simp [hn, hlen]), if_neg (by simp [hiter]), hseg]
    exact spellCheckLoop_first_miss st w pre suf hpre hc hi
  · intro hall
    cases hsc : st.spell_check with
    | none => simp [spellCheck, hsc]
    | some f =>
      rw [spellCheck, if_neg (by simp [hsc, hlen]), if_neg (by simp [hiter])]
      exact spellCheckLoop_all_pass st (st.segmentText text) hall

/-- Witness for C2: over "hi xx yy" with a checker accepting only "hi", the
misspelling written is exactly the second word's span (3, 2). -/
theorem spellCheck_first_miss_only_witness :
    spellCheck stBase [104, 105, 32, 120, 120, 32, 121, 121] = some (3, 2) :=
  (spellCheck_first_miss_only stBase [104, 105, 32, 120, 120, 32, 121, 121]
      (by decide) rfl).1 [wHi] wXx [wYy] rfl (by decide) (by decide) (by decide)

/-- C3: spellCheck returns without writing the misspelling output slots
whenever the input span is empty, or spell_check_ is unbound, or the text
iterator fails to initialize. -/
theorem spellCheck_fail_open (st : ClientState) (text : Str)
    (h : text.length = 0 ∨ st.spell_check = none ∨ st.textIterOk = false) :
    spellCheck st text = none := by
  unfold spellCheck
  rcases h with h | h | h
  · simp [h]
  · simp [h]
  · simp [h, ite_self]

/-- Witness for C3: an unbound checker yields no misspelling on a non-empty
text. -/
theorem spellCheck_fail_open_witness :
    spellCheck { stBase with spell_check := none } [104, 105] = none :=
  spellCheck_fail_open { stBase with spell_check := none } [104, 105]
    (Or.inr (Or.inl rfl))

/-- C5: requestCheckingOfText on an empty text, or on one with no
word-bearing characters, signals exactly one synchronous cancellation and
never invokes the provider's block-check method. -/
theorem requestCheckingOfText_scriptless_cancel (st : ClientState) (text : Str)
    (markersInText markerOffsets : List Nat)
    (h : text.isEmpty = true ∨ HasWordCharacters st.uscript text 0 = false) :
    requestCheckingOfText st text markersInText markerOffsets =
      ⟨[CompletionSignal.didCancelCheckingText], 0⟩ := by
  unfold requestCheckingOfText
  rcases h with h | h <;> simp [h]

/-- Witness for C5: on "..", punctuation classified USCRIPT_COMMON, the call
cancels with zero provider invocations. -/
theorem requestCheckingOfText_scriptless_cancel_witness :
    requestCheckingOfText stBase [46, 46] [7] [9] =
      ⟨[CompletionSignal.didCancelCheckingText], 0⟩ :=
  requestCheckingOfText_scriptless_cancel stBase [46, 46] [7] [9]
    (Or.inr (by decide))

end Electron
